import Mathlib

/-!
Shallow embedding of the SavorSwipe backend catalog core
(src/backend/duplicate_detector.py, src/backend/embeddings.py,
src/backend/upload.py, src/backend/recipe_deletion.py) and proofs of the
claims about it.

Modelling conventions:
- Python floats are modelled as rationals; math.sqrt is modelled by Rat.sqrt,
  which shares the properties the claims depend on (sqrt 0 = 0, sqrt of a
  positive number is positive, exact on perfect squares).
- JSON objects are modelled as insertion-ordered association lists, matching
  the iteration order of Python dicts; assignment d[k] = v replaces in place
  when the key exists and appends otherwise (dictInsert below).
- S3 calls are modelled by their observable outcomes: a get yields either a
  document with an ETag or a ClientError code; a put yields success or a
  ClientError code.  A raised exception is an Except.error carrying the code.
- The retry loop of batch_to_s3_atomic consumes an oracle
  env : Nat -> GetResponse x PutResponse giving, per attempt, the loaded
  catalog and the outcome of the conditional put; this models concurrent
  interference.  delete_recipe_atomic is run against an explicit store state
  with compare-and-swap put semantics.
-/

namespace SavorSwipe

/-! ### duplicate_detector.py -/

/-- Sum of pairwise products, mirroring the dot product loop of
DuplicateDetector.cosine_similarity. -/
def dot_product (vec1 vec2 : List ℚ) : ℚ :=
  ((vec1.zip vec2).map (fun p => p.1 * p.2)).sum

/-- Sum of squares of the entries of a vector. -/
def magnitude_sq (vec : List ℚ) : ℚ :=
  (vec.map (fun x => x * x)).sum

/-- Magnitude of a vector: math.sqrt of the sum of squares, with math.sqrt
modelled by Rat.sqrt. -/
def magnitude (vec : List ℚ) : ℚ :=
  Rat.sqrt (magnitude_sq vec)

/-- DuplicateDetector.cosine_similarity: raises ValueError on a length
mismatch, returns exactly 0 when either magnitude is zero, otherwise the dot
product over the product of magnitudes. -/
def cosine_similarity (vec1 vec2 : List ℚ) : Except String ℚ :=
  if vec1.length ≠ vec2.length then
    .error "Vector length mismatch"
  else
    let magnitude1 := magnitude vec1
    let magnitude2 := magnitude vec2
    if magnitude1 = 0 ∨ magnitude2 = 0 then
      .ok 0
    else
      .ok (dot_product vec1 vec2 / (magnitude1 * magnitude2))

/-- Linear scan of DuplicateDetector.find_most_similar: running maximum
starts at 0.0 with no key, and only a strictly greater score replaces it. -/
def find_most_similar_go (new_embedding : List ℚ) :
    List (String × List ℚ) → Option String → ℚ → Except String (Option String × ℚ)
  | [], most_similar_key, max_similarity => .ok (most_similar_key, max_similarity)
  | (recipe_key, embedding) :: rest, most_similar_key, max_similarity =>
    match cosine_similarity new_embedding embedding with
    | .error e => .error e
    | .ok similarity =>
      if max_similarity < similarity then
        find_most_similar_go new_embedding rest (some recipe_key) similarity
      else
        find_most_similar_go new_embedding rest most_similar_key max_similarity

/-- DuplicateDetector.find_most_similar.  The embeddings dict is an ordered
association list of recipe key to vector. -/
def find_most_similar (existing_embeddings : List (String × List ℚ))
    (new_embedding : List ℚ) : Except String (Option String × ℚ) :=
  if existing_embeddings.isEmpty then .ok (none, 0)
  else find_most_similar_go new_embedding existing_embeddings none 0

/-- config.SIMILARITY_THRESHOLD default. -/
def SIMILARITY_THRESHOLD : ℚ := 85 / 100

/-- DuplicateDetector.is_duplicate: duplicate exactly when the best score is
strictly greater than the threshold; on a duplicate the matched key and score
are returned, otherwise the key is None. -/
def is_duplicate (threshold : ℚ) (existing_embeddings : List (String × List ℚ))
    (new_embedding : List ℚ) : Except String (Bool × Option String × ℚ) :=
  match find_most_similar existing_embeddings new_embedding with
  | .error e => .error e
  | .ok (most_similar_key, similarity_score) =>
    if threshold < similarity_score then
      .ok (true, most_similar_key, similarity_score)
    else
      .ok (false, none, similarity_score)

/-! ### S3 response model, shared by embeddings.py, upload.py -/

/-- Observable outcome of an s3 get_object call. -/
inductive GetResponse (α : Type) where
  | success (doc : α) (etag : String)
  | clientError (code : String)
deriving DecidableEq

/-- Observable outcome of an s3 put_object call. -/
inductive PutResponse where
  | putSuccess
  | putClientError (code : String)
deriving DecidableEq

/-- An embeddings document: recipe key to vector. -/
abbrev EmbDoc := List (String × List ℚ)

/-- EmbeddingStore.load_embeddings: NoSuchKey yields the empty document with
no ETag; any other ClientError is re-raised; success yields the document and
its ETag. -/
def load_embeddings (resp : GetResponse EmbDoc) : Except String (EmbDoc × Option String) :=
  match resp with
  | .success doc etag => .ok (doc, some etag)
  | .clientError code => if code = "NoSuchKey" then .ok ([], none) else .error code

/-- EmbeddingStore.save_embeddings: a single conditional put, no retrying in
this function; PreconditionFailed yields false, any other ClientError is
re-raised, success yields true.  The document and the ETag shape the request
and do not otherwise affect the outcome. -/
def save_embeddings (embeddings : EmbDoc) (etag : Option String)
    (resp : PutResponse) : Except String Bool :=
  match embeddings, etag, resp with
  | _, _, .putSuccess => .ok true
  | _, _, .putClientError code =>
    if code = "PreconditionFailed" then .ok false else .error code

/-! ### upload.py: normalize_title and batch_to_s3_atomic -/

/-- A recipe document; only the fields batch_to_s3_atomic reads or writes are
modelled, everything else is opaque passthrough. -/
structure Recipe where
  Title : String
  key : Option Nat := none
  image_search_results : List String := []
  image_url : Option String := none
  uploadedAt : Option String := none
deriving DecidableEq

/-- The catalog document jsondata/combined_data.json: an insertion-ordered
map from recipe key string to recipe. -/
abbrev Catalog := List (String × Recipe)

/-- Remove leading and trailing whitespace from a character list, as
str.strip does on the characters of a string. -/
def strip_chars (l : List Char) : List Char :=
  ((l.dropWhile Char.isWhitespace).reverse.dropWhile Char.isWhitespace).reverse

/-- upload.normalize_title: lowercase then strip surrounding whitespace,
modelled on the character data of the string. -/
def normalize_title (title : String) : String :=
  ⟨strip_chars (title.data.map Char.toLower)⟩

/-- Python dict membership test on the model. -/
def hasKey (data : List (String × Recipe)) (k : String) : Bool :=
  data.any (fun kv => kv.1 == k)

/-- Python dict assignment d[k] = v: replace in place when the key exists,
append otherwise. -/
def dictInsert (data : Catalog) (k : String) (v : Recipe) : Catalog :=
  if hasKey data k then
    data.map (fun kv => if kv.1 == k then (k, v) else kv)
  else
    data ++ [(k, v)]

/-- The duplicate-title scan of batch_to_s3_atomic over the values of the
working document. -/
def titleExists (data : Catalog) (normalized_title : String) : Bool :=
  data.any (fun kv => normalize_title kv.2.Title == normalized_title)

/-- A per-item soft error entry appended to the errors list. -/
structure ErrEntry where
  file : Nat
  title : String
  reason : String
deriving DecidableEq

/-- The value batch_to_s3_atomic returns on success: the working document,
success_keys, position_to_key and errors. -/
structure AttemptResult where
  data : Catalog
  success_keys : List String
  position_to_key : List (Nat × String)
  errors : List ErrEntry
deriving DecidableEq

/-- The per-candidate loop of one attempt of batch_to_s3_atomic.  clock
models datetime.now at each candidate position of this attempt; the
search_results_list is read at the candidate position with default [].
A candidate whose normalized title is already in the working document is
rejected with the duplicate soft error; one with no search results is
rejected with the missing-image soft error; otherwise it is stamped with
key, image_search_results and uploadedAt and assigned str(next_key). -/
def process_candidates_go (clock : Nat → String) (search_results_list : List (List String)) :
    List Recipe → Nat → Catalog → Nat → AttemptResult
  | [], _, data, _ => ⟨data, [], [], []⟩
  | recipe :: rest, file_idx, data, next_key =>
    let normalized_title := normalize_title recipe.Title
    if titleExists data normalized_title then
      let r := process_candidates_go clock search_results_list rest (file_idx + 1) data next_key
      { r with errors := ⟨file_idx, recipe.Title, "Recipe title already exists"⟩ :: r.errors }
    else
      let search_results := search_results_list.getD file_idx []
      if search_results.isEmpty then
        let r := process_candidates_go clock search_results_list rest (file_idx + 1) data next_key
        { r with errors := ⟨file_idx, recipe.Title, "No image search results available"⟩ :: r.errors }
      else
        let stamped : Recipe :=
          { recipe with
            key := some next_key
            image_search_results := search_results
            uploadedAt := some (clock file_idx) }
        let r := process_candidates_go clock search_results_list rest (file_idx + 1)
          (dictInsert data (toString next_key) stamped) (next_key + 1)
        { r with
          success_keys := toString next_key :: r.success_keys
          position_to_key := (file_idx, toString next_key) :: r.position_to_key }

/-- One attempt of batch_to_s3_atomic over the freshly loaded document:
highest_key is the entry count of the loaded document and the first assigned
key is highest_key + 1. -/
def process_candidates (existing_data : Catalog) (recipes : List Recipe)
    (search_results_list : List (List String)) (clock : Nat → String) : AttemptResult :=
  process_candidates_go clock search_results_list recipes 0 existing_data
    (existing_data.length + 1)

/-- The catalog load at the top of each attempt of batch_to_s3_atomic:
NoSuchKey yields the empty document with no ETag, any other ClientError is
re-raised. -/
def load_catalog (resp : GetResponse Catalog) : Except String (Catalog × Option String) :=
  match resp with
  | .success doc etag => .ok (doc, some etag)
  | .clientError code => if code = "NoSuchKey" then .ok ([], none) else .error code

/-- upload.MAX_RETRIES. -/
def MAX_RETRIES : Nat := 3

deriving instance DecidableEq for Except

/-- Trace summary of a batch_to_s3_atomic run: the returned or raised value,
the attempt whose conditional put committed (none when nothing was written),
and how many conditional puts were issued. -/
structure BatchOutcome where
  result : Except String AttemptResult
  committedAttempt : Option Nat
  putCount : Nat
deriving DecidableEq

/-- The retry loop of batch_to_s3_atomic.  Fuel counts the attempts left in
range(MAX_RETRIES); when it runs out the retry-exhaustion exception is
raised.  Per attempt: reload the document, process the candidates against
the fresh copy, return without any put when nothing was accepted, otherwise
issue the conditional put; PreconditionFailed restarts from scratch, any
other put error is raised. -/
def batch_loop (env : Nat → GetResponse Catalog × PutResponse) (recipes : List Recipe)
    (search_results_list : List (List String)) (clock : Nat → Nat → String) :
    Nat → Nat → Nat → BatchOutcome
  | _, 0, puts =>
    ⟨.error "Race condition: max retries exceeded after 3 attempts", none, puts⟩
  | attempt, fuel + 1, puts =>
    match load_catalog (env attempt).1 with
    | .error code => ⟨.error code, none, puts⟩
    | .ok (existing_data, _etag) =>
      let r := process_candidates existing_data recipes search_results_list (clock attempt)
      if r.success_keys.isEmpty then
        ⟨.ok r, none, puts⟩
      else
        match (env attempt).2 with
        | .putSuccess => ⟨.ok r, some attempt, puts + 1⟩
        | .putClientError code =>
          if code = "PreconditionFailed" then
            batch_loop env recipes search_results_list clock (attempt + 1) fuel (puts + 1)
          else
            ⟨.error code, none, puts + 1⟩

/-- upload.batch_to_s3_atomic run against the attempt oracle env. -/
def batch_to_s3_atomic (env : Nat → GetResponse Catalog × PutResponse)
    (recipes : List Recipe) (search_results_list : List (List String))
    (clock : Nat → Nat → String) : BatchOutcome :=
  batch_loop env recipes search_results_list clock 0 MAX_RETRIES 0

/-! ### recipe_deletion.py -/

/-- recipe_deletion.delete_recipe_from_combined_data: pure removal of a key
from the catalog dictionary, the input returned unchanged when the key is
absent. -/
def delete_recipe_from_combined_data (recipe_key : String) (json_data : Catalog) : Catalog :=
  if json_data.any (fun kv => kv.1 == recipe_key) then
    json_data.filter (fun kv => kv.1 != recipe_key)
  else
    json_data

/-- recipe_deletion.delete_embedding_from_store: pure removal of a key from
the embeddings dictionary, the input returned unchanged when the key is
absent. -/
def delete_embedding_from_store (recipe_key : String) (embeddings : EmbDoc) : EmbDoc :=
  if embeddings.any (fun kv => kv.1 == recipe_key) then
    embeddings.filter (fun kv => kv.1 != recipe_key)
  else
    embeddings

/-- State of the two documents in the object store: body and current ETag of
each when present, plus a counter generating fresh ETags. -/
structure StoreState where
  combined : Option (Catalog × String)
  embeddings : Option (EmbDoc × String)
  ctr : Nat
deriving DecidableEq

/-- Fresh ETag produced by a successful write. -/
def fresh_etag (ctr : Nat) : String :=
  "etag-" ++ toString ctr

/-- Conditional put against one stored object: an IfMatch header that does
not match the current ETag (or an absent object) yields PreconditionFailed
and leaves the object as it was; otherwise the body is written under a fresh
ETag. -/
def s3_put {α : Type} (obj : Option (α × String)) (body : α) (ifMatch : Option String)
    (ctr : Nat) : PutResponse × Option (α × String) × Nat :=
  match ifMatch with
  | none => (.putSuccess, some (body, fresh_etag ctr), ctr + 1)
  | some e =>
    match obj with
    | some (_, cur) =>
      if cur = e then (.putSuccess, some (body, fresh_etag ctr), ctr + 1)
      else (.putClientError "PreconditionFailed", obj, ctr)
    | none => (.putClientError "PreconditionFailed", obj, ctr)

/-- The retry loop of recipe_deletion.delete_recipe_atomic, run against an
explicit store state (no concurrent interference).  Per attempt: load both
documents (an absent document reads as empty with no ETag), remove the key
from copies of both, then conditionally write the catalog and then the
embeddings; a conflict on either write restarts the whole attempt while
attempts remain, and both writes succeeding yields (true, none). -/
def delete_loop (recipe_key : String) : Nat → Nat → StoreState → (Bool × Option String) × StoreState
  | _, 0, st => ((false, some "Max retries (3) exceeded"), st)
  | attempt, fuel + 1, st =>
    let combined_load : Catalog × Option String :=
      match st.combined with
      | some (d, e) => (d, some e)
      | none => ([], none)
    let embeddings_load : EmbDoc × Option String :=
      match st.embeddings with
      | some (d, e) => (d, some e)
      | none => ([], none)
    let updated_combined_data := delete_recipe_from_combined_data recipe_key combined_load.1
    let updated_embeddings := delete_embedding_from_store recipe_key embeddings_load.1
    let put1 := s3_put st.combined updated_combined_data combined_load.2 st.ctr
    match put1.1 with
    | .putClientError code =>
      if code = "PreconditionFailed" then
        if 0 < fuel then delete_loop recipe_key (attempt + 1) fuel st
        else ((false, some "Max retries exceeded updating jsondata/combined_data.json"), st)
      else ((false, some code), st)
    | .putSuccess =>
      let st1 : StoreState := { st with combined := put1.2.1, ctr := put1.2.2 }
      let put2 := s3_put st1.embeddings updated_embeddings embeddings_load.2 st1.ctr
      match put2.1 with
      | .putClientError code =>
        if code = "PreconditionFailed" then
          if 0 < fuel then delete_loop recipe_key (attempt + 1) fuel st1
          else ((false, some "Max retries exceeded updating jsondata/recipe_embeddings.json"), st1)
        else ((false, some code), st1)
      | .putSuccess =>
        ((true, none), { st1 with embeddings := put2.2.1, ctr := put2.2.2 })

/-- recipe_deletion.delete_recipe_atomic with its attempt budget of 3. -/
def delete_recipe_atomic (recipe_key : String) (st : StoreState) :
    (Bool × Option String) × StoreState :=
  delete_loop recipe_key 0 3 st

/-! ### Theorems -/

/-- Rat.sqrt of 0 is 0, as math.sqrt. -/
theorem Rat_sqrt_zero : Rat.sqrt 0 = 0 := by
  simp

/-- Rat.sqrt of 1 is 1, as math.sqrt. -/
theorem Rat_sqrt_one : Rat.sqrt 1 = 1 := by
  simp

/-- Nat.sqrt of 410 truncates to 20. -/
theorem Nat_sqrt_410 : Nat.sqrt 410 = 20 := by
  rw [show (410 : ℕ) = 20 * 20 + 10 by norm_num]
  exact Nat.sqrt_add_eq 20 (by norm_num)

/-- Rat.sqrt of 410 truncates to 20, the model of math.sqrt doing so only at
the displayed precision of the comparison in the boundary scenario. -/
theorem Rat_sqrt_410 : Rat.sqrt 410 = 20 := by
  rw [Rat.sqrt_ofNat, Nat_sqrt_410]
  norm_num

/-- C9: cosine_similarity raises a dimension-mismatch error if and only if
the two vectors have different lengths; for equal-length inputs a zero
magnitude on either side (in particular an all-zero vector) yields exactly 0
with no division performed, and otherwise the result is the dot product
divided by the product of magnitudes. -/
theorem cosine_similarity_spec (vec1 vec2 : List ℚ) :
    ((∃ msg, cosine_similarity vec1 vec2 = .error msg) ↔ vec1.length ≠ vec2.length)
    ∧ (vec1.length = vec2.length → magnitude vec1 = 0 ∨ magnitude vec2 = 0 →
        cosine_similarity vec1 vec2 = .ok 0)
    ∧ (vec1.length = vec2.length → (∀ x ∈ vec1, x = 0) →
        cosine_similarity vec1 vec2 = .ok 0)
    ∧ (vec1.length = vec2.length → magnitude vec1 ≠ 0 → magnitude vec2 ≠ 0 →
        cosine_similarity vec1 vec2
          = .ok (dot_product vec1 vec2 / (magnitude vec1 * magnitude vec2))) := by
  refine ⟨⟨fun ⟨msg, hmsg⟩ => ?_, fun hne => ⟨"Vector length mismatch", by
    simp [cosine_similarity, hne]⟩⟩, fun hl hmag => ?_, fun hl hzero => ?_,
    fun hl hm1 hm2 => ?_⟩
  · intro hlen
    by_cases hmag : magnitude vec1 = 0 ∨ magnitude vec2 = 0 <;>
      simp [cosine_similarity, hlen, hmag] at hmsg
  · simp [cosine_similarity, hl, hmag]
  · have hsq : magnitude_sq vec1 = 0 := by
      have : ∀ x ∈ vec1.map (fun x => x * x), x = 0 := by
        intro x hx
        obtain ⟨y, hy, rfl⟩ := List.mem_map.1 hx
        rw [hzero y hy, mul_zero]
      simpa [magnitude_sq] using List.sum_eq_zero this
    have hm : magnitude vec1 = 0 := by
      rw [magnitude, hsq]
      exact Rat_sqrt_zero
    simp [cosine_similarity, hl, hm]
  · simp [cosine_similarity, hl, hm1, hm2]

/-- Witness for cosine_similarity_spec: a zero vector against an equal-length
vector gives exactly 0. -/
theorem cosine_similarity_spec_witness :
    cosine_similarity [(0 : ℚ)] [(3 : ℚ)] = .ok 0 :=
  (cosine_similarity_spec [0] [3]).2.1 rfl
    (Or.inl (by simp [magnitude, magnitude_sq, Rat_sqrt_zero]))

/-- C8: is_duplicate decides duplicate exactly when the best similarity
score is strictly greater than the threshold; at an exactly-equal score the
result is not-duplicate, and on a duplicate the matched key and its score
are returned. -/
theorem is_duplicate_strict_threshold (threshold : ℚ)
    (existing_embeddings : List (String × List ℚ)) (new_embedding : List ℚ)
    (most_similar_key : Option String) (similarity_score : ℚ)
    (h : find_most_similar existing_embeddings new_embedding
        = .ok (most_similar_key, similarity_score)) :
    is_duplicate threshold existing_embeddings new_embedding
      = .ok (decide (threshold < similarity_score),
          if threshold < similarity_score then most_similar_key else none,
          similarity_score)
    ∧ (similarity_score = threshold →
        is_duplicate threshold existing_embeddings new_embedding
          = .ok (false, none, similarity_score)) := by
  constructor
  · rw [is_duplicate, h]
    by_cases hc : threshold < similarity_score <;> simp [hc]
  · intro heq
    subst heq
    rw [is_duplicate, h]
    simp [lt_irrefl]

/-- Witness for is_duplicate_strict_threshold: a best score exactly equal to
the default threshold 0.85 is judged not-duplicate. -/
theorem is_duplicate_strict_threshold_witness :
    is_duplicate SIMILARITY_THRESHOLD [("1", [17, 11])] [1, 0]
      = .ok (decide (SIMILARITY_THRESHOLD < 17 / 20),
          if SIMILARITY_THRESHOLD < 17 / 20 then some "1" else none, 17 / 20)
    ∧ SIMILARITY_THRESHOLD = 17 / 20 :=
  ⟨(is_duplicate_strict_threshold SIMILARITY_THRESHOLD [("1", [17, 11])] [1, 0]
      (some "1") (17 / 20) (by
        have hcos : cosine_similarity [(1 : ℚ), 0] [17, 11] = .ok (17 / 20) := by
          norm_num [cosine_similarity, magnitude, magnitude_sq, dot_product,
            Rat_sqrt_410, Rat_sqrt_one]
        norm_num [find_most_similar, find_most_similar_go, hcos])).1,
   by norm_num [SIMILARITY_THRESHOLD]⟩

/-- The scan of find_most_similar keeps its initial best key and score 0
when every scored entry comes out non-positive. -/
theorem find_most_similar_go_nonpos (new_embedding : List ℚ) :
    ∀ (l : List (String × List ℚ)) (bk : Option String),
      (∀ kv ∈ l, ∃ s, cosine_similarity new_embedding kv.2 = .ok s ∧ s ≤ 0) →
      find_most_similar_go new_embedding l bk 0 = .ok (bk, 0)
  | [], _, _ => rfl
  | kv :: rest, bk, hall => by
    obtain ⟨s, hcs, hs⟩ := hall kv (List.mem_cons_self kv rest)
    rw [find_most_similar_go, hcs]
    simp only
    rw [if_neg (not_lt.2 hs)]
    exact find_most_similar_go_nonpos new_embedding rest bk
      (fun kv2 h2 => hall kv2 (List.mem_cons_of_mem kv h2))

/-- C10: when every stored vector scores non-positively against the query,
find_most_similar returns (none, 0) on a non-empty index exactly as it does
on an empty one, because the running maximum starts at 0 and only strictly
greater scores replace it. -/
theorem find_most_similar_nonpositive (new_embedding : List ℚ)
    (existing_embeddings : List (String × List ℚ))
    (hne : existing_embeddings ≠ [])
    (hall : ∀ kv ∈ existing_embeddings, ∃ s,
        cosine_similarity new_embedding kv.2 = .ok s ∧ s ≤ 0) :
    find_most_similar existing_embeddings new_embedding = .ok (none, 0)
    ∧ find_most_similar [] new_embedding = .ok (none, 0) := by
  constructor
  · rw [find_most_similar, if_neg (by simpa [List.isEmpty_iff] using hne)]
    exact find_most_similar_go_nonpos new_embedding existing_embeddings none hall
  · rfl

/-- Witness for find_most_similar_nonpositive: one stored vector with
similarity -1 yields (none, 0). -/
theorem find_most_similar_nonpositive_witness :
    find_most_similar [("1", [-1])] [1] = .ok (none, 0)
    ∧ find_most_similar [] [1] = .ok (none, 0) :=
  find_most_similar_nonpositive [1] [("1", [-1])] (by simp)
    (by
      intro kv hkv
      simp only [List.mem_singleton] at hkv
      subst hkv
      exact ⟨-1, by norm_num [cosine_similarity, magnitude, magnitude_sq,
        dot_product, Rat_sqrt_one], by norm_num⟩)

/-- C6: the versioned store primitive.  Loading an absent document yields
the empty document with a null version rather than an error and any other
load failure propagates; save returns false exactly for the
version-mismatch conflict, raises every other failure, and performs no
retry (it issues a single conditional put whose sole outcome decides the
call). -/
theorem versioned_store_primitive :
    (∀ (doc : EmbDoc) (etag : String),
        load_embeddings (.success doc etag) = .ok (doc, some etag))
    ∧ load_embeddings (.clientError "NoSuchKey") = .ok ([], none)
    ∧ (∀ code, code ≠ "NoSuchKey" → load_embeddings (.clientError code) = .error code)
    ∧ (∀ (embeddings : EmbDoc) (etag : Option String),
        save_embeddings embeddings etag .putSuccess = .ok true)
    ∧ (∀ (embeddings : EmbDoc) (etag : Option String) (resp : PutResponse),
        save_embeddings embeddings etag resp = .ok false ↔
          resp = .putClientError "PreconditionFailed")
    ∧ (∀ (embeddings : EmbDoc) (etag : Option String) (code : String),
        code ≠ "PreconditionFailed" →
          save_embeddings embeddings etag (.putClientError code) = .error code) := by
  refine ⟨fun doc etag => rfl, rfl, fun code hc => by simp [load_embeddings, hc],
    fun embeddings etag => rfl, fun embeddings etag resp => ?_,
    fun embeddings etag code hc => by simp [save_embeddings, hc]⟩
  cases resp with
  | putSuccess => simp [save_embeddings]
  | putClientError code =>
    by_cases hc : code = "PreconditionFailed" <;> simp [save_embeddings, hc]

/-- Witness for versioned_store_primitive: a non-NoSuchKey load failure and
a non-conflict save failure both propagate as errors. -/
theorem versioned_store_primitive_witness :
    load_embeddings (.clientError "AccessDenied") = .error "AccessDenied"
    ∧ save_embeddings [] none (.putClientError "AccessDenied") = .error "AccessDenied" :=
  ⟨versioned_store_primitive.2.2.1 "AccessDenied" (by decide),
   versioned_store_primitive.2.2.2.2.2 [] none "AccessDenied" (by decide)⟩

/-- When every attempt in the remaining budget loads successfully, accepts
at least one candidate, and then hits a conditional-write conflict, the loop
burns the whole budget, issues one put per attempt, commits nothing and
raises the retry-exhaustion error. -/
theorem batch_loop_all_conflict (env : Nat → GetResponse Catalog × PutResponse)
    (recipes : List Recipe) (srl : List (List String)) (clock : Nat → Nat → String) :
    ∀ (fuel attempt puts : Nat),
      (∀ j, attempt ≤ j → j < attempt + fuel →
        ∃ d etag, load_catalog (env j).1 = .ok (d, etag)
          ∧ (process_candidates d recipes srl (clock j)).success_keys ≠ []
          ∧ (env j).2 = .putClientError "PreconditionFailed") →
      batch_loop env recipes srl clock attempt fuel puts
        = ⟨.error "Race condition: max retries exceeded after 3 attempts", none, puts + fuel⟩ := by
  intro fuel
  induction fuel with
  | zero => intro attempt puts _; rfl
  | succ fuel ih =>
    intro attempt puts hcond
    obtain ⟨d, etag, hload, hsk, hput⟩ := hcond attempt (le_refl _) (by omega)
    rw [batch_loop, hload]
    dsimp only
    rw [if_neg (by simpa [List.isEmpty_iff] using hsk), hput]
    dsimp only
    rw [if_pos rfl, ih (attempt + 1) (puts + 1)
      (fun j hj1 hj2 => hcond j (by omega) (by omega))]
    congr 1
    omega

/-- C1: when the conditional write conflicts on all three attempts (each
attempt having reloaded the catalog and accepted at least one candidate),
batch_to_s3_atomic raises the fatal retry-exhaustion error after exactly 3
attempts with nothing committed; and when an attempt accepts no candidate
the call returns the soft errors immediately with zero conditional writes,
so soft per-item errors never consume a retry attempt. -/
theorem batch_retry_exhaustion (env : Nat → GetResponse Catalog × PutResponse)
    (recipes : List Recipe) (srl : List (List String)) (clock : Nat → Nat → String) :
    ((∀ j, j < MAX_RETRIES →
        ∃ d etag, load_catalog (env j).1 = .ok (d, etag)
          ∧ (process_candidates d recipes srl (clock j)).success_keys ≠ []
          ∧ (env j).2 = .putClientError "PreconditionFailed") →
      batch_to_s3_atomic env recipes srl clock
        = ⟨.error "Race condition: max retries exceeded after 3 attempts", none, 3⟩)
    ∧ (∀ d etag, load_catalog (env 0).1 = .ok (d, etag) →
        (process_candidates d recipes srl (clock 0)).success_keys = [] →
        batch_to_s3_atomic env recipes srl clock
          = ⟨.ok (process_candidates d recipes srl (clock 0)), none, 0⟩) := by
  constructor
  · intro hcond
    have h := batch_loop_all_conflict env recipes srl clock MAX_RETRIES 0 0
      (fun j _ hj2 => hcond j (by simpa using hj2))
    simpa [batch_to_s3_atomic] using h
  · intro d etag hload hsk
    show batch_loop env recipes srl clock 0 (2 + 1) 0 = _
    rw [batch_loop, hload]
    dsimp only
    rw [if_pos (by simp [hsk])]

/-- Witness for batch_retry_exhaustion: a store double that always reports
conflict exhausts the budget, and a batch whose only candidate lacks image
results returns at once without any write. -/
theorem batch_retry_exhaustion_witness :
    batch_to_s3_atomic (fun _ => (.success [] "e", .putClientError "PreconditionFailed"))
        [{ Title := "Soup" }] [["u"]] (fun _ _ => "t")
      = ⟨.error "Race condition: max retries exceeded after 3 attempts", none, 3⟩
    ∧ batch_to_s3_atomic (fun _ => (.success [] "e", .putSuccess))
        [{ Title := "Soup" }] [[]] (fun _ _ => "t")
      = ⟨.ok (process_candidates [] [{ Title := "Soup" }] [[]] (fun _ => "t")), none, 0⟩ :=
  ⟨(batch_retry_exhaustion _ _ _ _).1
      (fun j _ => ⟨[], some "e", rfl, by decide, rfl⟩),
   (batch_retry_exhaustion _ _ _ _).2 [] (some "e") rfl (by decide)⟩

/-- The keys assigned during one attempt are the consecutive decimal strings
starting at the next_key the attempt began with. -/
theorem process_candidates_go_success_keys (clock : Nat → String) (srl : List (List String))
    (recipes : List Recipe) :
    ∀ (file_idx : Nat) (data : Catalog) (next_key : Nat),
      (process_candidates_go clock srl recipes file_idx data next_key).success_keys
        = (List.range' next_key
            (process_candidates_go clock srl recipes file_idx data next_key).success_keys.length).map
            (fun n => toString n) := by
  induction recipes with
  | nil => intro file_idx data next_key; rfl
  | cons recipe rest ih =>
    intro file_idx data next_key
    rw [process_candidates_go]
    by_cases h1 : titleExists data (normalize_title recipe.Title)
    · simp only [if_pos h1]
      exact ih (file_idx + 1) data next_key
    · simp only [if_neg h1]
      by_cases h2 : (srl.getD file_idx []).isEmpty
      · simp only [if_pos h2]
        exact ih (file_idx + 1) data next_key
      · simp only [if_neg h2]
        rw [List.length_cons, List.range'_succ, List.map_cons]
        congr 1
        exact ih (file_idx + 1) _ (next_key + 1)

/-- Whenever the loop commits, it does so at an attempt whose load succeeded,
and the returned value is exactly the processing of that attempt's freshly
loaded document under that attempt's clock, with at least one accepted
candidate. -/
theorem batch_loop_commit (env : Nat → GetResponse Catalog × PutResponse)
    (recipes : List Recipe) (srl : List (List String)) (clock : Nat → Nat → String) :
    ∀ (fuel attempt puts i : Nat),
      (batch_loop env recipes srl clock attempt fuel puts).committedAttempt = some i →
      ∃ d etag, load_catalog (env i).1 = .ok (d, etag)
        ∧ (batch_loop env recipes srl clock attempt fuel puts).result
            = .ok (process_candidates d recipes srl (clock i))
        ∧ (process_candidates d recipes srl (clock i)).success_keys ≠ [] := by
  intro fuel
  induction fuel with
  | zero =>
    intro attempt puts i h
    exact absurd h (by rw [batch_loop]; simp)
  | succ fuel ih =>
    intro attempt puts i h
    rw [batch_loop] at h ⊢
    cases hload : load_catalog (env attempt).1 with
    | error code =>
      rw [hload] at h
      simp at h
    | ok pair =>
      obtain ⟨d, etag⟩ := pair
      rw [hload] at h
      dsimp only at h ⊢
      by_cases hsk : (process_candidates d recipes srl (clock attempt)).success_keys.isEmpty
      · rw [if_pos hsk] at h
        simp at h
      · rw [if_neg hsk] at h ⊢
        cases hput : (env attempt).2 with
        | putSuccess =>
          rw [hput] at h
          dsimp only at h ⊢
          have hi : attempt = i := by simpa using h
          subst hi
          exact ⟨d, etag, hload, rfl, by simpa [List.isEmpty_iff] using hsk⟩
        | putClientError code =>
          rw [hput] at h
          dsimp only at h ⊢
          by_cases hc : code = "PreconditionFailed"
          · rw [if_pos hc] at h ⊢
            exact ih (attempt + 1) (puts + 1) i h
          · rw [if_neg hc] at h
            simp at h

/-- C2: on the attempt whose conditional write commits, the keys handed out
are the consecutive counts starting at count(freshly reloaded document) + 1
rendered as strings, computed from that attempt's own reload; on an empty
catalog the first assigned key is the string 1. -/
theorem batch_key_assignment_fresh (env : Nat → GetResponse Catalog × PutResponse)
    (recipes : List Recipe) (srl : List (List String)) (clock : Nat → Nat → String)
    (i : Nat) (res : AttemptResult) (d : Catalog) (etag : Option String)
    (hcommit : (batch_to_s3_atomic env recipes srl clock).committedAttempt = some i)
    (hres : (batch_to_s3_atomic env recipes srl clock).result = .ok res)
    (hload : load_catalog (env i).1 = .ok (d, etag)) :
    res.success_keys
      = (List.range' (d.length + 1) res.success_keys.length).map (fun n => toString n)
    ∧ (d = [] → res.success_keys.head? = some (toString 1)) := by
  obtain ⟨d2, etag2, hload2, hres2, hsk2⟩ :=
    batch_loop_commit env recipes srl clock MAX_RETRIES 0 0 i hcommit
  have hd : d2 = d ∧ etag2 = etag := by
    have := hload2.symm.trans hload
    simpa using this
  obtain ⟨rfl, rfl⟩ := hd
  have hres3 : res = process_candidates d2 recipes srl (clock i) := by
    have := hres2.symm.trans hres
    simpa using this.symm
  subst hres3
  constructor
  · exact process_candidates_go_success_keys (clock i) srl recipes 0 d2 (d2.length + 1)
  · intro hde
    subst hde
    have hkeys : (process_candidates [] recipes srl (clock i)).success_keys
        = (List.range' 1 (process_candidates [] recipes srl (clock i)).success_keys.length).map
          (fun n => toString n) :=
      process_candidates_go_success_keys (clock i) srl recipes 0 [] 1
    cases hsknil : (process_candidates [] recipes srl (clock i)).success_keys with
    | nil => exact absurd hsknil hsk2
    | cons k ks =>
      rw [hsknil, List.length_cons, List.range'_succ, List.map_cons] at hkeys
      injection hkeys with hk _
      simp [hk]

/-- Witness for batch_key_assignment_fresh: an empty catalog committed on
the first attempt hands out the key string 1 first. -/
theorem batch_key_assignment_fresh_witness :
    (process_candidates [] [{ Title := "Soup" }] [["u"]] (fun _ => "t")).success_keys
      = (List.range' (List.length ([] : Catalog) + 1)
          (process_candidates [] [{ Title := "Soup" }] [["u"]] (fun _ => "t")).success_keys.length).map
          (fun n => toString n)
    ∧ (([] : Catalog) = [] →
        (process_candidates [] [{ Title := "Soup" }] [["u"]] (fun _ => "t")).success_keys.head?
          = some (toString 1)) :=
  batch_key_assignment_fresh (fun _ => (.success [] "e", .putSuccess))
    [{ Title := "Soup" }] [["u"]] (fun _ _ => "t") 0
    (process_candidates [] [{ Title := "Soup" }] [["u"]] (fun _ => "t")) [] (some "e")
    (by decide) (by decide) rfl

/-- C3 counterexample: on the sparse catalog with key set 1, 2, 5 (three
entries) the next assigned recipe key is the string 4 (count-based), not the
string 6 the claim states. -/
theorem sparse_catalog_next_key_counterexample :
    (batch_to_s3_atomic
        (fun _ => (.success
          [("1", { Title := "A" }), ("2", { Title := "B" }), ("5", { Title := "C" })] "e",
          .putSuccess))
        [{ Title := "Stew" }] [["u"]] (fun _ _ => "t")).result
      = .ok ⟨[("1", { Title := "A" }), ("2", { Title := "B" }), ("5", { Title := "C" }),
          ("4", { Title := "Stew", key := some 4, image_search_results := ["u"],
                  uploadedAt := some "t" })],
          ["4"], [(0, "4")], []⟩
    ∧ (["4"] : List String) ≠ ["6"] := by
  decide

/-- C3 amended: on every committed batch whose freshly reloaded catalog has
exactly three entries (in particular key set 1, 2, 5), the first assigned
key is the string 4, count-based, not the max-based string 6. -/
theorem sparse_catalog_next_key_amended (env : Nat → GetResponse Catalog × PutResponse)
    (recipes : List Recipe) (srl : List (List String)) (clock : Nat → Nat → String)
    (i : Nat) (res : AttemptResult) (d : Catalog) (etag : Option String)
    (hlen : d.length = 3)
    (hcommit : (batch_to_s3_atomic env recipes srl clock).committedAttempt = some i)
    (hres : (batch_to_s3_atomic env recipes srl clock).result = .ok res)
    (hload : load_catalog (env i).1 = .ok (d, etag)) :
    res.success_keys.head? = some "4" := by
  obtain ⟨d2, etag2, hload2, hres2, hsk2⟩ :=
    batch_loop_commit env recipes srl clock MAX_RETRIES 0 0 i hcommit
  obtain ⟨rfl, rfl⟩ : d2 = d ∧ etag2 = etag := by simpa using hload2.symm.trans hload
  have hres3 : res = process_candidates d2 recipes srl (clock i) := by
    simpa using (hres2.symm.trans hres).symm
  subst hres3
  have hkeys : (process_candidates d2 recipes srl (clock i)).success_keys
      = (List.range' (d2.length + 1)
          (process_candidates d2 recipes srl (clock i)).success_keys.length).map
        (fun n => toString n) :=
    process_candidates_go_success_keys (clock i) srl recipes 0 d2 (d2.length + 1)
  rw [hlen] at hkeys
  cases hsknil : (process_candidates d2 recipes srl (clock i)).success_keys with
  | nil => exact absurd hsknil hsk2
  | cons k ks =>
    rw [hsknil, List.length_cons, List.range'_succ, List.map_cons] at hkeys
    injection hkeys with hk _
    have h4 : toString (3 + 1) = "4" := by decide
    simp [hk, h4]

/-- Witness for sparse_catalog_next_key_amended at the key set 1, 2, 5. -/
theorem sparse_catalog_next_key_amended_witness :
    (process_candidates
        [("1", { Title := "A" }), ("2", { Title := "B" }), ("5", { Title := "C" })]
        [{ Title := "Stew" }] [["u"]] (fun _ => "t")).success_keys.head? = some "4" :=
  sparse_catalog_next_key_amended
    (fun _ => (.success
      [("1", { Title := "A" }), ("2", { Title := "B" }), ("5", { Title := "C" })] "e",
      .putSuccess))
    [{ Title := "Stew" }] [["u"]] (fun _ _ => "t") 0
    (process_candidates
      [("1", { Title := "A" }), ("2", { Title := "B" }), ("5", { Title := "C" })]
      [{ Title := "Stew" }] [["u"]] (fun _ => "t"))
    [("1", { Title := "A" }), ("2", { Title := "B" }), ("5", { Title := "C" })] (some "e")
    (by decide) (by decide) (by decide) rfl

/-- C5 counterexample: with a conflict on the first attempt and a successful
write on the second, the committed uploadedAt is the second attempt's stamp,
not the value stamped on the first attempt. -/
theorem uploadedAt_first_attempt_counterexample :
    (batch_to_s3_atomic
        (fun j => if j = 0 then (.success [] "e0", .putClientError "PreconditionFailed")
                  else (.success [] "e1", .putSuccess))
        [{ Title := "Soup" }] [["u"]] (fun a _ => if a = 0 then "t0" else "t1")).result
      = .ok ⟨[("1", { Title := "Soup", key := some 1, image_search_results := ["u"],
                      uploadedAt := some "t1" })], ["1"], [(0, "1")], []⟩
    ∧ (batch_to_s3_atomic
        (fun j => if j = 0 then (.success [] "e0", .putClientError "PreconditionFailed")
                  else (.success [] "e1", .putSuccess))
        [{ Title := "Soup" }] [["u"]] (fun a _ => if a = 0 then "t0" else "t1")).committedAttempt
      = some 1
    ∧ ("t1" : String) ≠ "t0" := by
  refine ⟨by decide, by decide, by decide⟩

/-- C5 amended: uploadedAt is stamped anew during each attempt's mutation
construction; the value in the committed document is the stamp of the
attempt whose write succeeded, re-derived on every retry. -/
theorem uploadedAt_stamped_per_attempt (env : Nat → GetResponse Catalog × PutResponse)
    (r : Recipe) (urls : List String) (clock : Nat → Nat → String)
    (i : Nat) (res : AttemptResult) (etag : Option String)
    (hurls : urls ≠ [])
    (hcommit : (batch_to_s3_atomic env [r] [urls] clock).committedAttempt = some i)
    (hres : (batch_to_s3_atomic env [r] [urls] clock).result = .ok res)
    (hload : load_catalog (env i).1 = .ok ([], etag)) :
    res.data = [("1", { r with key := some 1, image_search_results := urls,
                               uploadedAt := some (clock i 0) })] := by
  obtain ⟨d2, etag2, hload2, hres2, hsk2⟩ :=
    batch_loop_commit env [r] [urls] clock MAX_RETRIES 0 0 i hcommit
  obtain ⟨rfl, rfl⟩ : d2 = [] ∧ etag2 = etag := by simpa using hload2.symm.trans hload
  have hres3 : res = process_candidates [] [r] [urls] (clock i) := by
    simpa using (hres2.symm.trans hres).symm
  subst hres3
  have hne : ¬(urls.isEmpty = true) := by simpa [List.isEmpty_iff] using hurls
  have h1 : toString (1 : Nat) = "1" := by decide
  simp [process_candidates, process_candidates_go, titleExists, dictInsert, hasKey,
    List.getD, hne, h1]

/-- Witness for uploadedAt_stamped_per_attempt: committing on the second
attempt stamps the second attempt's clock value. -/
theorem uploadedAt_stamped_per_attempt_witness :
    (process_candidates [] [{ Title := "Soup" }] [["u"]]
        ((fun a _ => if a = 0 then "t0" else "t1") 1)).data
      = [("1", { Title := "Soup", key := some 1, image_search_results := ["u"],
                 uploadedAt := some ((fun (a : Nat) (_ : Nat) =>
                   if a = 0 then "t0" else "t1") 1 0) })] :=
  uploadedAt_stamped_per_attempt
    (fun j => if j = 0 then (.success [] "e0", .putClientError "PreconditionFailed")
              else (.success [] "e1", .putSuccess))
    { Title := "Soup" } ["u"] (fun a _ => if a = 0 then "t0" else "t1") 1
    (process_candidates [] [{ Title := "Soup" }] [["u"]]
      ((fun a _ => if a = 0 then "t0" else "t1") 1))
    (some "e1") (by decide) (by decide) (by decide) rfl

/-- Deleting a key absent from both present documents succeeds on the first
attempt, rewrites both documents with their contents unchanged (only the
version tokens move), and advances the ETag counter by two. -/
theorem delete_absent (st : StoreState) (recipe_key : String) (dc : Catalog) (ec : String)
    (de : EmbDoc) (ee : String)
    (hc : st.combined = some (dc, ec)) (he : st.embeddings = some (de, ee))
    (hkc : dc.any (fun kv => kv.1 == recipe_key) = false)
    (hke : de.any (fun kv => kv.1 == recipe_key) = false) :
    (delete_recipe_atomic recipe_key st).1 = (true, none)
    ∧ (delete_recipe_atomic recipe_key st).2.combined = some (dc, fresh_etag st.ctr)
    ∧ (delete_recipe_atomic recipe_key st).2.embeddings = some (de, fresh_etag (st.ctr + 1)) := by
  have h3 : delete_recipe_atomic recipe_key st = delete_loop recipe_key 0 (2 + 1) st := rfl
  rw [h3, delete_loop, hc, he]
  simp [delete_recipe_from_combined_data, delete_embedding_from_store, hkc, hke, s3_put]

/-- C7: delete_recipe_atomic is idempotent for missing keys: with the key
absent from both documents the call returns (true, none) and both documents
keep their contents; running it twice returns (true, none) both times with
the contents unchanged by the second call; and with both documents absent
the call still returns (true, none). -/
theorem delete_missing_key_idempotent (st : StoreState) (recipe_key : String)
    (dc : Catalog) (ec : String) (de : EmbDoc) (ee : String)
    (hc : st.combined = some (dc, ec)) (he : st.embeddings = some (de, ee))
    (hkc : dc.any (fun kv => kv.1 == recipe_key) = false)
    (hke : de.any (fun kv => kv.1 == recipe_key) = false) :
    (delete_recipe_atomic recipe_key st).1 = (true, none)
    ∧ (∃ e1, (delete_recipe_atomic recipe_key st).2.combined = some (dc, e1))
    ∧ (∃ e2, (delete_recipe_atomic recipe_key st).2.embeddings = some (de, e2))
    ∧ (delete_recipe_atomic recipe_key ((delete_recipe_atomic recipe_key st).2)).1 = (true, none)
    ∧ (∃ e3, (delete_recipe_atomic recipe_key
        ((delete_recipe_atomic recipe_key st).2)).2.combined = some (dc, e3))
    ∧ (∃ e4, (delete_recipe_atomic recipe_key
        ((delete_recipe_atomic recipe_key st).2)).2.embeddings = some (de, e4))
    ∧ (∀ st0 : StoreState, st0.combined = none → st0.embeddings = none →
        (delete_recipe_atomic recipe_key st0).1 = (true, none)) := by
  obtain ⟨h1, h2, h3⟩ := delete_absent st recipe_key dc ec de ee hc he hkc hke
  obtain ⟨g1, g2, g3⟩ := delete_absent ((delete_recipe_atomic recipe_key st).2) recipe_key
    dc (fresh_etag st.ctr) de (fresh_etag (st.ctr + 1)) h2 h3 hkc hke
  refine ⟨h1, ⟨_, h2⟩, ⟨_, h3⟩, g1, ⟨_, g2⟩, ⟨_, g3⟩, fun st0 hc0 he0 => ?_⟩
  have h30 : delete_recipe_atomic recipe_key st0 = delete_loop recipe_key 0 (2 + 1) st0 := rfl
  rw [h30, delete_loop, hc0, he0]
  simp [delete_recipe_from_combined_data, delete_embedding_from_store, s3_put]

/-- Witness for delete_missing_key_idempotent: deleting key 2 twice from
documents holding only key 1 yields (true, none) both times. -/
theorem delete_missing_key_idempotent_witness :
    (delete_recipe_atomic "2"
        ⟨some ([("1", { Title := "A" })], "e1"), some ([("1", ([] : List ℚ))], "e2"), 0⟩).1
      = (true, none)
    ∧ (delete_recipe_atomic "2"
        ((delete_recipe_atomic "2"
          ⟨some ([("1", { Title := "A" })], "e1"),
           some ([("1", ([] : List ℚ))], "e2"), 0⟩).2)).1
      = (true, none) :=
  ⟨(delete_missing_key_idempotent
      ⟨some ([("1", { Title := "A" })], "e1"), some ([("1", ([] : List ℚ))], "e2"), 0⟩
      "2" [("1", { Title := "A" })] "e1" [("1", ([] : List ℚ))] "e2"
      rfl rfl (by decide) (by decide)).1,
   (delete_missing_key_idempotent
      ⟨some ([("1", { Title := "A" })], "e1"), some ([("1", ([] : List ℚ))], "e2"), 0⟩
      "2" [("1", { Title := "A" })] "e1" [("1", ([] : List ℚ))] "e2"
      rfl rfl (by decide) (by decide)).2.2.2.1⟩

/-- Numeric value of a decimal digit character. -/
def digitVal (c : Char) : Nat := c.toNat - 48

/-- Positional value of a character list read as decimal digits after an
accumulator. -/
def digitsVal (a : Nat) : List Char → Nat
  | [] => a
  | c :: cs => digitsVal (a * 10 + digitVal c) cs

/-- digitVal inverts Nat.digitChar on decimal digits. -/
theorem digitVal_digitChar : ∀ n, n < 10 → digitVal (Nat.digitChar n) = n := by decide

/-- digitsVal on the empty digit list. -/
theorem digitsVal_nil (a : Nat) : digitsVal a [] = a := rfl

/-- digitsVal consumes one leading digit. -/
theorem digitsVal_cons (a : Nat) (c : Char) (cs : List Char) :
    digitsVal a (c :: cs) = digitsVal (a * 10 + digitVal c) cs := rfl

/-- One unfolding step of Nat.toDigitsCore at base 10. -/
theorem toDigitsCore_succ (f n : Nat) (acc : List Char) :
    Nat.toDigitsCore 10 (f + 1) n acc
      = if n / 10 = 0 then Nat.digitChar (n % 10) :: acc
        else Nat.toDigitsCore 10 f (n / 10) (Nat.digitChar (n % 10) :: acc) := rfl

/-- Evaluating the digits produced by Nat.toDigitsCore recovers the encoded
number below the accumulated prefix. -/
theorem digitsVal_toDigitsCore :
    ∀ (f n : Nat) (acc : List Char), n < f →
      ∃ k, 0 < k ∧ ∀ a, digitsVal a (Nat.toDigitsCore 10 f n acc) = digitsVal (a * k + n) acc := by
  intro f
  induction f with
  | zero => intro n acc h; omega
  | succ f ih =>
    intro n acc h
    by_cases hdiv : n / 10 = 0
    · refine ⟨10, by norm_num, fun a => ?_⟩
      rw [toDigitsCore_succ]
      rw [if_pos hdiv, digitsVal_cons, digitVal_digitChar (n % 10) (by omega),
        Nat.mod_eq_of_lt (by omega)]
    · have hlt : n / 10 < f := by omega
      obtain ⟨k, hk, hall⟩ := ih (n / 10) (Nat.digitChar (n % 10) :: acc) hlt
      refine ⟨k * 10, by positivity, fun a => ?_⟩
      rw [toDigitsCore_succ]
      rw [if_neg hdiv, hall a, digitsVal_cons, digitVal_digitChar (n % 10) (by omega)]
      have h1 : a * (k * 10) = a * k * 10 := by ring
      rw [h1]
      congr 1
      omega

/-- Evaluating the decimal digit string of n recovers n. -/
theorem digitsVal_toDigits (n : Nat) : digitsVal 0 (Nat.toDigits 10 n) = n := by
  obtain ⟨k, _, hall⟩ := digitsVal_toDigitsCore (n + 1) n [] (Nat.lt_succ_self n)
  rw [Nat.toDigits, hall 0, digitsVal_nil]
  omega

/-- The decimal string representation of naturals is injective. -/
theorem toString_nat_injective {m n : Nat} (h : toString m = toString n) : m = n := by
  have hd : Nat.toDigits 10 m = Nat.toDigits 10 n := congrArg String.data h
  have hm := digitsVal_toDigits m
  have hn := digitsVal_toDigits n
  rw [hd, hn] at hm
  exact hm.symm

/-- Membership scan over an appended singleton. -/
theorem hasKey_append (data : Catalog) (k2 : String) (v : Recipe) (k : String) :
    hasKey (data ++ [(k2, v)]) k = (hasKey data k || (k2 == k)) := by
  simp [hasKey, List.any_append]

/-- Title scan over an appended singleton. -/
theorem titleExists_append (data : Catalog) (k2 : String) (v : Recipe) (t : String) :
    titleExists (data ++ [(k2, v)]) t
      = (titleExists data t || (normalize_title v.Title == t)) := by
  simp [titleExists, List.any_append]

/-- Assignment with a fresh key appends the new entry. -/
theorem dictInsert_fresh (data : Catalog) (k : String) (v : Recipe)
    (h : hasKey data k = false) : dictInsert data k v = data ++ [(k, v)] := by
  simp [dictInsert, h]

/-- Every soft-error entry and every position mapping produced by the
candidate loop carries a position at or after the loop's starting index. -/
theorem process_candidates_go_index_bound (clock : Nat → String) (srl : List (List String))
    (recipes : List Recipe) :
    ∀ (file_idx : Nat) (data : Catalog) (next_key : Nat),
      (∀ e ∈ (process_candidates_go clock srl recipes file_idx data next_key).errors,
          file_idx ≤ e.file)
      ∧ (∀ p ∈ (process_candidates_go clock srl recipes file_idx data next_key).position_to_key,
          file_idx ≤ p.1) := by
  induction recipes with
  | nil =>
    intro file_idx data next_key
    constructor
    · intro e he
      rw [process_candidates_go] at he
      simp at he
    · intro p hp
      rw [process_candidates_go] at hp
      simp at hp
  | cons recipe rest ih =>
    intro file_idx data next_key
    rw [process_candidates_go]
    by_cases h1 : titleExists data (normalize_title recipe.Title)
    · rw [if_pos h1]
      dsimp only
      obtain ⟨ihe, ihp⟩ := ih (file_idx + 1) data next_key
      constructor
      · intro e he
        rcases List.mem_cons.1 he with rfl | hmem
        · exact le_refl _
        · have := ihe e hmem
          omega
      · intro p hp
        have := ihp p hp
        omega
    · rw [if_neg h1]
      dsimp only
      by_cases h2 : (srl.getD file_idx []).isEmpty
      · rw [if_pos h2]
        dsimp only
        obtain ⟨ihe, ihp⟩ := ih (file_idx + 1) data next_key
        constructor
        · intro e he
          rcases List.mem_cons.1 he with rfl | hmem
          · exact le_refl _
          · have := ihe e hmem
            omega
        · intro p hp
          have := ihp p hp
          omega
      · rw [if_neg h2]
        dsimp only
        obtain ⟨ihe, ihp⟩ := ih (file_idx + 1)
          (dictInsert data (toString next_key)
            { recipe with key := some next_key,
                          image_search_results := srl.getD file_idx [],
                          uploadedAt := some (clock file_idx) }) (next_key + 1)
        constructor
        · intro e he
          have := ihe e he
          omega
        · intro p hp
          rcases List.mem_cons.1 hp with rfl | hmem
          · exact le_refl _
          · have := ihp p hmem
            omega

/-- Within one attempt, a candidate is rejected with the duplicate-title
soft error exactly when its normalized title occurs in the reloaded document
or matches a candidate accepted earlier in the same attempt, provided no
assigned key collides with a key already in the document. -/
theorem process_candidates_go_dup_iff (clock : Nat → String) (srl : List (List String))
    (recipes : List Recipe) :
    ∀ (file_idx : Nat) (data : Catalog) (next_key : Nat),
      (∀ m, next_key ≤ m → hasKey data (toString m) = false) →
      ∀ (off : Nat) (r : Recipe), recipes.get? off = some r →
      ((⟨file_idx + off, r.Title, "Recipe title already exists"⟩
          ∈ (process_candidates_go clock srl recipes file_idx data next_key).errors)
        ↔ (titleExists data (normalize_title r.Title) = true
           ∨ ∃ off2 r2 k, off2 < off ∧ recipes.get? off2 = some r2
               ∧ (file_idx + off2, k)
                   ∈ (process_candidates_go clock srl recipes file_idx data next_key).position_to_key
               ∧ normalize_title r2.Title = normalize_title r.Title)) := by
  induction recipes with
  | nil =>
    intro fi data nk _ off r hoff
    simp at hoff
  | cons recipe rest ih =>
    intro fi data nk hfresh off r hoff
    rw [process_candidates_go]
    by_cases h1 : titleExists data (normalize_title recipe.Title)
    · rw [if_pos h1]
      dsimp only
      cases off with
      | zero =>
        rw [List.get?_cons_zero] at hoff
        injection hoff with hr
        subst hr
        constructor
        · intro _
          exact Or.inl h1
        · intro _
          rw [Nat.add_zero]
          exact List.mem_cons_self _ _
      | succ o =>
        rw [List.get?_cons_succ] at hoff
        have ihx := ih (fi + 1) data nk hfresh o r hoff
        constructor
        · intro hmem
          rcases List.mem_cons.1 hmem with heq | hmem2
          · exfalso
            rw [ErrEntry.mk.injEq] at heq
            obtain ⟨hf, -, -⟩ := heq
            omega
          · rw [show fi + (o + 1) = (fi + 1) + o from by omega] at hmem2
            rcases ihx.1 hmem2 with htit | ⟨off2, r2, k, hlt, hget, hpk, hmatch⟩
            · exact Or.inl htit
            · refine Or.inr ⟨off2 + 1, r2, k, by omega, ?_, ?_, hmatch⟩
              · rw [List.get?_cons_succ]
                exact hget
              · rw [show fi + (off2 + 1) = (fi + 1) + off2 from by omega]
                exact hpk
        · intro hrhs
          apply List.mem_cons_of_mem
          rw [show fi + (o + 1) = (fi + 1) + o from by omega]
          apply ihx.2
          rcases hrhs with htit | ⟨off2, r2, k, hlt, hget, hpk, hmatch⟩
          · exact Or.inl htit
          · cases off2 with
            | zero =>
              exfalso
              have hb := (process_candidates_go_index_bound clock srl rest
                (fi + 1) data nk).2 _ hpk
              have hb2 : fi + 1 ≤ fi + 0 := hb
              omega
            | succ o2 =>
              rw [List.get?_cons_succ] at hget
              rw [show fi + (o2 + 1) = (fi + 1) + o2 from by omega] at hpk
              exact Or.inr ⟨o2, r2, k, by omega, hget, hpk, hmatch⟩
    · rw [if_neg h1]
      dsimp only
      by_cases h2 : (srl.getD fi []).isEmpty
      · rw [if_pos h2]
        dsimp only
        cases off with
        | zero =>
          rw [List.get?_cons_zero] at hoff
          injection hoff with hr
          subst hr
          constructor
          · intro hmem
            exfalso
            rcases List.mem_cons.1 hmem with heq | hmem2
            · rw [ErrEntry.mk.injEq] at heq
              obtain ⟨-, -, hreason⟩ := heq
              exact absurd hreason (by decide)
            · have hb := (process_candidates_go_index_bound clock srl rest
                (fi + 1) data nk).1 _ hmem2
              have hb2 : fi + 1 ≤ fi + 0 := hb
              omega
          · intro hrhs
            exfalso
            rcases hrhs with htit | ⟨off2, r2, k, hlt, -, -, -⟩
            · exact absurd htit h1
            · omega
        | succ o =>
          rw [List.get?_cons_succ] at hoff
          have ihx := ih (fi + 1) data nk hfresh o r hoff
          constructor
          · intro hmem
            rcases List.mem_cons.1 hmem with heq | hmem2
            · exfalso
              rw [ErrEntry.mk.injEq] at heq
              obtain ⟨hf, -, -⟩ := heq
              omega
            · rw [show fi + (o + 1) = (fi + 1) + o from by omega] at hmem2
              rcases ihx.1 hmem2 with htit | ⟨off2, r2, k, hlt, hget, hpk, hmatch⟩
              · exact Or.inl htit
              · refine Or.inr ⟨off2 + 1, r2, k, by omega, ?_, ?_, hmatch⟩
                · rw [List.get?_cons_succ]
                  exact hget
                · rw [show fi + (off2 + 1) = (fi + 1) + off2 from by omega]
                  exact hpk
          · intro hrhs
            apply List.mem_cons_of_mem
            rw [show fi + (o + 1) = (fi + 1) + o from by omega]
            apply ihx.2
            rcases hrhs with htit | ⟨off2, r2, k, hlt, hget, hpk, hmatch⟩
            · exact Or.inl htit
            · cases off2 with
              | zero =>
                exfalso
                have hb := (process_candidates_go_index_bound clock srl rest
                  (fi + 1) data nk).2 _ hpk
                have hb2 : fi + 1 ≤ fi + 0 := hb
                omega
              | succ o2 =>
                rw [List.get?_cons_succ] at hget
                rw [show fi + (o2 + 1) = (fi + 1) + o2 from by omega] at hpk
                exact Or.inr ⟨o2, r2, k, by omega, hget, hpk, hmatch⟩
      · rw [if_neg h2]
        dsimp only
        set stamped : Recipe :=
          { recipe with key := some nk,
                        image_search_results := srl.getD fi [],
                        uploadedAt := some (clock fi) } with hstamped
        have hfnk : hasKey data (toString nk) = false := hfresh nk (le_refl nk)
        rw [dictInsert_fresh data (toString nk) stamped hfnk]
        have hTitle : stamped.Title = recipe.Title := by rw [hstamped]
        have hfresh2 : ∀ m, nk + 1 ≤ m →
            hasKey (data ++ [(toString nk, stamped)]) (toString m) = false := by
          intro m hm
          rw [hasKey_append, hfresh m (by omega)]
          simp only [Bool.false_or]
          rw [beq_eq_false_iff_ne]
          intro heq
          have := toString_nat_injective heq
          omega
        cases off with
        | zero =>
          rw [List.get?_cons_zero] at hoff
          injection hoff with hr
          subst hr
          constructor
          · intro hmem
            exfalso
            have hb := (process_candidates_go_index_bound clock srl rest
              (fi + 1) (data ++ [(toString nk, stamped)]) (nk + 1)).1 _ hmem
            have hb2 : fi + 1 ≤ fi + 0 := hb
            omega
          · intro hrhs
            exfalso
            rcases hrhs with htit | ⟨off2, r2, k, hlt, -, -, -⟩
            · exact absurd htit h1
            · omega
        | succ o =>
          rw [List.get?_cons_succ] at hoff
          have ihx := ih (fi + 1) (data ++ [(toString nk, stamped)]) (nk + 1) hfresh2 o r hoff
          constructor
          · intro hmem
            rw [show fi + (o + 1) = (fi + 1) + o from by omega] at hmem
            rcases ihx.1 hmem with htit | ⟨off2, r2, k, hlt, hget, hpk, hmatch⟩
            · rw [titleExists_append] at htit
              simp only [Bool.or_eq_true] at htit
              rcases htit with hl | hr2
              · exact Or.inl hl
              · rw [hTitle] at hr2
                simp only [beq_iff_eq] at hr2
                refine Or.inr ⟨0, recipe, toString nk, by omega, ?_, ?_, hr2⟩
                · rw [List.get?_cons_zero]
                · rw [Nat.add_zero]
                  exact List.mem_cons_self _ _
            · refine Or.inr ⟨off2 + 1, r2, k, by omega, ?_, ?_, hmatch⟩
              · rw [List.get?_cons_succ]
                exact hget
              · apply List.mem_cons_of_mem
                rw [show fi + (off2 + 1) = (fi + 1) + off2 from by omega]
                exact hpk
          · intro hrhs
            rw [show fi + (o + 1) = (fi + 1) + o from by omega]
            apply ihx.2
            rcases hrhs with htit | ⟨off2, r2, k, hlt, hget, hpk, hmatch⟩
            · apply Or.inl
              rw [titleExists_append, htit]
              rfl
            · cases off2 with
              | zero =>
                rw [List.get?_cons_zero] at hget
                injection hget with hr2
                subst hr2
                apply Or.inl
                rw [titleExists_append, hTitle, hmatch]
                simp
              | succ o2 =>
                rw [List.get?_cons_succ] at hget
                rcases List.mem_cons.1 hpk with heq | hmem2
                · exfalso
                  rw [Prod.mk.injEq] at heq
                  obtain ⟨hf, -⟩ := heq
                  omega
                · rw [show fi + (o2 + 1) = (fi + 1) + o2 from by omega] at hmem2
                  exact Or.inr ⟨o2, r2, k, by omega, hget, hmem2, hmatch⟩

/-- C4 amended: candidates are processed in input order and a candidate is
rejected with the duplicate-title soft error exactly when its normalized
title matches a recipe in the reloaded catalog or a candidate accepted
earlier in the same attempt, provided no assigned key collides with a key
already present in the catalog; and the Soup batch yields exactly one
accepted candidate and one duplicate-title rejection. -/
theorem duplicate_title_rejection (existing : Catalog) (recipes : List Recipe)
    (srl : List (List String)) (clock : Nat → String) (i : Nat) (r : Recipe)
    (hfresh : ∀ m, existing.length + 1 ≤ m → hasKey existing (toString m) = false)
    (hget : recipes.get? i = some r) :
    ((⟨i, r.Title, "Recipe title already exists"⟩
        ∈ (process_candidates existing recipes srl clock).errors)
      ↔ (titleExists existing (normalize_title r.Title) = true
         ∨ ∃ j rj k, j < i ∧ recipes.get? j = some rj
             ∧ (j, k) ∈ (process_candidates existing recipes srl clock).position_to_key
             ∧ normalize_title rj.Title = normalize_title r.Title))
    ∧ (∀ (clock2 : Nat → String),
        (process_candidates [] [{ Title := "Soup" }, { Title := "  SOUP  " }]
          [["u"], ["u"]] clock2).success_keys = ["1"]
        ∧ (process_candidates [] [{ Title := "Soup" }, { Title := "  SOUP  " }]
            [["u"], ["u"]] clock2).errors
          = [⟨1, "  SOUP  ", "Recipe title already exists"⟩]) := by
  constructor
  · have h := process_candidates_go_dup_iff clock srl recipes 0 existing
      (existing.length + 1) hfresh i r hget
    simpa [process_candidates] using h
  · intro clock2
    exact ⟨rfl, rfl⟩

/-- C4 counterexample: on a sparse catalog an assigned key can overwrite the
catalog entry holding a matching title, after which the later same-titled
candidate is accepted instead of rejected, so the unconditional claim fails. -/
theorem duplicate_title_overwrite_counterexample :
    titleExists
      [("1", { Title := "A" }), ("2", { Title := "B" }), ("5", { Title := "Chili" })]
      (normalize_title "Chili") = true
    ∧ (process_candidates
        [("1", { Title := "A" }), ("2", { Title := "B" }), ("5", { Title := "Chili" })]
        [{ Title := "Stew" }, { Title := "Curry" }, { Title := "Chili" }]
        [["u"], ["u"], ["u"]] (fun _ => "t")).errors = []
    ∧ (process_candidates
        [("1", { Title := "A" }), ("2", { Title := "B" }), ("5", { Title := "Chili" })]
        [{ Title := "Stew" }, { Title := "Curry" }, { Title := "Chili" }]
        [["u"], ["u"], ["u"]] (fun _ => "t")).success_keys = ["4", "5", "6"] := by
  refine ⟨by decide, by decide, by decide⟩

/-- Witness for duplicate_title_rejection: the Soup batch against the empty
catalog accepts one candidate and rejects the other with the duplicate-title
reason. -/
theorem duplicate_title_rejection_witness :
    (process_candidates [] [{ Title := "Soup" }, { Title := "  SOUP  " }]
        [["u"], ["u"]] (fun _ => "t")).success_keys = ["1"]
    ∧ (process_candidates [] [{ Title := "Soup" }, { Title := "  SOUP  " }]
        [["u"], ["u"]] (fun _ => "t")).errors
      = [⟨1, "  SOUP  ", "Recipe title already exists"⟩] :=
  (duplicate_title_rejection [] [{ Title := "Soup" }, { Title := "  SOUP  " }]
    [["u"], ["u"]] (fun _ => "t") 1 { Title := "  SOUP  " }
    (fun _ _ => rfl) (by decide)).2 (fun _ => "t")

end SavorSwipe
